import Mathlib

/-!
Verification of `fix_icons.py`: a script that base64-decodes a fixed
1×1-pixel PNG literal and writes it to four icon files under a directory
`icons` that it creates if absent, printing one confirmation line on
success.

The filesystem is modelled as an association list of file paths to byte
sequences plus a list of existing directories.  Filesystem write failures
from the environment (disk full, permission denied, ...) are injected by
an oracle `w : Nat → Bool` saying whether the i-th file write fails.
-/

namespace FixIcons

abbrev Bytes := List Nat

/-- Base64 alphabet value of a character (RFC 4648), as used by Python's
`base64.b64decode`. -/
def b64Char (c : Char) : Option Nat :=
  if 'A' ≤ c ∧ c ≤ 'Z' then some (c.toNat - 65)
  else if 'a' ≤ c ∧ c ≤ 'z' then some (c.toNat - 71)
  else if '0' ≤ c ∧ c ≤ '9' then some (c.toNat - 48 + 52)
  else if c = '+' then some 62
  else if c = '/' then some 63
  else none

/-- Decode a list of base64 characters in groups of four, handling `=`
padding at the end; `none` on malformed input (bad padding / stray
characters), mirroring `binascii.Error` from Python's decoder. -/
def b64decodeCore : List Char → Option Bytes
  | [] => some []
  | c1 :: c2 :: c3 :: c4 :: rest =>
    match b64Char c1, b64Char c2 with
    | some a, some b =>
      if c3 = '=' then
        if c4 = '=' ∧ rest = [] then some [a * 4 + b / 16] else none
      else
        match b64Char c3 with
        | some c =>
          if c4 = '=' then
            if rest = [] then some [a * 4 + b / 16, (b % 16) * 16 + c / 4]
            else none
          else
            match b64Char c4 with
            | some d =>
              (b64decodeCore rest).map
                (fun t => (a * 4 + b / 16) :: ((b % 16) * 16 + c / 4) ::
                          ((c % 4) * 64 + d) :: t)
            | none => none
        | none => none
    | _, _ => none
  | _ => none

/-- Python's `base64.b64decode` with default `validate=False`: characters
outside the alphabet (other than `=`) are discarded before decoding. -/
def b64decode (s : String) : Option Bytes :=
  b64decodeCore (s.data.filter (fun c => (b64Char c).isSome || c = '='))

/-- The embedded base64 literal (`data` in `fix_icons.py`): a minimal
1×1 red-dot PNG. -/
def data : String :=
  "iVBORw0KGgoAAAANSUhEUgAAAAEAAAABCAYAAAAfFcSJAAAADUlEQVR42mP8z8BQDwAEhQGAhKmMIQAAAABJRU5ErkJggg=="

/-- The decoded bytes of the embedded literal (`icon_bytes` in the
source), written out explicitly. -/
def icon_bytes : Bytes :=
  [137, 80, 78, 71, 13, 10, 26, 10, 0, 0, 0, 13, 73, 72, 68, 82,
   0, 0, 0, 1, 0, 0, 0, 1, 8, 6, 0, 0, 0, 31, 21, 196,
   137, 0, 0, 0, 13, 73, 68, 65, 84, 120, 218, 99, 252, 207, 192, 80,
   15, 0, 4, 133, 1, 128, 132, 169, 140, 33, 0, 0, 0, 0, 73, 69,
   78, 68, 174, 66, 96, 130]

/-- The ordered list of output filenames (the `for name in [...]` list). -/
def manifest : List String := ["32x32.png", "128x128.png", "128x128@2x.png", "icon.png"]

/-- `os.path.join` on POSIX for a directory and a relative name. -/
def pathJoin (d n : String) : String := d ++ "/" ++ n

/-- The four full target paths, in write order. -/
def targetPaths : List String := manifest.map (pathJoin "icons")

/-- Association-list lookup of a file's content by path. -/
def lookupA : List (String × Bytes) → String → Option Bytes
  | [], _ => none
  | e :: rest, p => if e.1 = p then some e.2 else lookupA rest p

/-- Association-list update: overwrite the entry for `p` if present,
otherwise append a new entry. -/
def setA : List (String × Bytes) → String → Bytes → List (String × Bytes)
  | [], p, b => [(p, b)]
  | e :: rest, p, b => if e.1 = p then (p, b) :: rest else e :: setA rest p b

/-- A filesystem state: the set of existing directories and the regular
files with their contents. -/
structure FS where
  dirs : List String
  files : List (String × Bytes)
deriving DecidableEq, Repr

/-- The empty working directory. -/
def emptyFS : FS := ⟨[], []⟩

def lookupFile (fs : FS) (p : String) : Option Bytes := lookupA fs.files p

def hasFile (fs : FS) (p : String) : Bool := (lookupA fs.files p).isSome

def setFile (fs : FS) (p : String) (b : Bytes) : FS :=
  { fs with files := setA fs.files p b }

/-- `os.makedirs(d, exist_ok=True)`: fails if a regular file occupies the
path; succeeds without change if the directory already exists; otherwise
creates the directory. -/
def makedirs (fs : FS) (d : String) : Option FS :=
  if hasFile fs d then none
  else if d ∈ fs.dirs then some fs
  else some { fs with dirs := d :: fs.dirs }

/-- The write loop `for name in [...]`: write `b` to `icons/<name>` for
each name in turn, numbering writes from `i`.  A write fails (returning
the filesystem reached so far and `false`) if the oracle injects a
failure at that index or the target directory does not exist; on failure
the loop stops at once. -/
def writeLoop (w : Nat → Bool) : FS → List String → Bytes → Nat → FS × Bool
  | fs, [], _, _ => (fs, true)
  | fs, n :: rest, b, i =>
    if w i then (fs, false)
    else if "icons" ∈ fs.dirs then
      writeLoop w (setFile fs (pathJoin "icons" n) b) rest b (i + 1)
    else (fs, false)

/-- How a run ends: full success, a base64 decode error, or a filesystem
error (each error terminates the process with non-zero status). -/
inductive Outcome
  | success
  | decodeError
  | fsError
deriving DecidableEq, Repr

/-- The observable result of a run: final filesystem, the lines printed
to standard output, and the outcome. -/
structure RunResult where
  fs : FS
  out : List String
  outcome : Outcome
deriving DecidableEq, Repr

/-- The confirmation line printed on success. -/
def confirmMsg : String := "Minimalist icons generated"

/-- The whole script, straight-line: decode the literal, ensure `icons`
exists, write the four files in order, print the confirmation.  `args`
and `env` model the command line and environment; the script never
consults either.  `w` is the injected-write-failure oracle. -/
def run (args : List String) (env : String → Option String)
    (w : Nat → Bool) (fs : FS) : RunResult :=
  match b64decode data with
  | none => ⟨fs, [], .decodeError⟩
  | some bytes =>
    match makedirs fs "icons" with
    | none => ⟨fs, [], .fsError⟩
    | some fs1 =>
      match writeLoop w fs1 manifest bytes 0 with
      | (fs2, true) => ⟨fs2, [confirmMsg], .success⟩
      | (fs2, false) => ⟨fs2, [], .fsError⟩

/-- The oracle injecting no write failures. -/
def noFail : Nat → Bool := fun _ => false

/-- Empty environment, for witnesses. -/
def noEnv : String → Option String := fun _ => none

/-- An oracle that fails every write from the third (index 2) onwards. -/
def failTwo : Nat → Bool := fun i => decide (2 ≤ i)

/-- A working directory blocked by a regular file named `icons`. -/
def iconsFileFS : FS := ⟨[], [("icons", [0])]⟩

/-- A working directory holding an unrelated file and directory. -/
def otherFS : FS := ⟨["docs"], [("readme.md", [7])]⟩

/-- Recognizer for a minimal 1×1 raster (PNG) payload: the 8-byte PNG
signature followed by an IHDR chunk declaring width 1 and height 1. -/
def isPng1x1 (b : Bytes) : Bool :=
  decide (b.take 8 = [137, 80, 78, 71, 13, 10, 26, 10]) &&
  decide ((b.drop 16).take 4 = [0, 0, 0, 1]) &&
  decide ((b.drop 20).take 4 = [0, 0, 0, 1])

/-- The embedded literal decodes to exactly `icon_bytes`. -/
theorem b64decode_data : b64decode data = some icon_bytes := by decide

lemma lookupA_setA_self (l : List (String × Bytes)) (p : String) (b : Bytes) :
    lookupA (setA l p b) p = some b := by
  induction l with
  | nil => simp [setA, lookupA]
  | cons e rest ih =>
    by_cases h : e.1 = p
    · simp [setA, h, lookupA]
    · simp [setA, h, lookupA, ih]

lemma lookupA_setA_other (l : List (String × Bytes)) (p q : String) (b : Bytes)
    (h : q ≠ p) : lookupA (setA l p b) q = lookupA l q := by
  have hpq : ¬(p = q) := fun e => h e.symm
  induction l with
  | nil => simp [setA, lookupA, hpq]
  | cons e rest ih =>
    by_cases he : e.1 = p
    · subst he
      simp [setA, lookupA, hpq]
    · simp [setA, he, lookupA, ih]

lemma setA_self_eq (l : List (String × Bytes)) (p : String) (b : Bytes)
    (h : lookupA l p = some b) : setA l p b = l := by
  induction l with
  | nil => simp [lookupA] at h
  | cons e rest ih =>
    by_cases he : e.1 = p
    · subst he
      simp [lookupA] at h
      simp [setA, ← h]
    · simp [lookupA, he] at h
      simp [setA, he, ih h]

lemma lookupFile_setFile_self (fs : FS) (p : String) (b : Bytes) :
    lookupFile (setFile fs p b) p = some b := lookupA_setA_self fs.files p b

lemma lookupFile_setFile_other (fs : FS) (p q : String) (b : Bytes) (h : q ≠ p) :
    lookupFile (setFile fs p b) q = lookupFile fs q := lookupA_setA_other fs.files p q b h

lemma setFile_dirs (fs : FS) (p : String) (b : Bytes) :
    (setFile fs p b).dirs = fs.dirs := rfl

lemma setFile_eq_self (fs : FS) (p : String) (b : Bytes)
    (h : lookupFile fs p = some b) : setFile fs p b = fs := by
  cases fs with
  | mk dirs files => simp [setFile]; exact setA_self_eq files p b h

lemma makedirs_none_iff (fs : FS) (d : String) :
    makedirs fs d = none ↔ hasFile fs d = true := by
  unfold makedirs
  by_cases h : hasFile fs d
  · simp [h]
  · by_cases hc : d ∈ fs.dirs <;> simp [h, hc]

lemma makedirs_files (fs : FS) (d : String) (fs' : FS)
    (h : makedirs fs d = some fs') : fs'.files = fs.files := by
  unfold makedirs at h
  by_cases hf : hasFile fs d
  · simp [hf] at h
  · by_cases hc : d ∈ fs.dirs <;> simp [hf, hc] at h <;> simp [← h]

lemma makedirs_hasFile (fs : FS) (d : String) (fs' : FS)
    (h : makedirs fs d = some fs') (p : String) : hasFile fs' p = hasFile fs p := by
  unfold hasFile
  rw [makedirs_files fs d fs' h]

lemma makedirs_lookup (fs : FS) (d : String) (fs' : FS)
    (h : makedirs fs d = some fs') (p : String) : lookupFile fs' p = lookupFile fs p := by
  unfold lookupFile
  rw [makedirs_files fs d fs' h]

lemma makedirs_mem (fs : FS) (d : String) (fs' : FS)
    (h : makedirs fs d = some fs') : d ∈ fs'.dirs := by
  unfold makedirs at h
  by_cases hf : hasFile fs d
  · simp [hf] at h
  · by_cases hc : d ∈ fs.dirs <;> simp [hf, hc] at h <;> rw [← h]
    · exact hc
    · simp

lemma makedirs_dirs_cases (fs : FS) (d : String) (fs' : FS)
    (h : makedirs fs d = some fs') :
    fs'.dirs = fs.dirs ∨ fs'.dirs = d :: fs.dirs := by
  unfold makedirs at h
  by_cases hf : hasFile fs d
  · simp [hf] at h
  · by_cases hc : d ∈ fs.dirs <;> simp [hf, hc] at h
    · left; rw [← h]
    · right; rw [← h]

lemma makedirs_not_hasFile (fs : FS) (d : String) (fs' : FS)
    (h : makedirs fs d = some fs') : hasFile fs d = false := by
  by_cases hf : hasFile fs d
  · rw [(makedirs_none_iff fs d).2 hf] at h; exact absurd h (by simp)
  · simpa using hf

lemma writeLoop_dirs (w : Nat → Bool) (b : Bytes) :
    ∀ (ns : List String) (fs : FS) (i : Nat), (writeLoop w fs ns b i).1.dirs = fs.dirs := by
  intro ns
  induction ns with
  | nil => intro fs i; rfl
  | cons n rest ih =>
    intro fs i
    rw [writeLoop]
    by_cases hw : w i
    · simp [hw]
    · by_cases hc : "icons" ∈ fs.dirs
      · simp only [hw, Bool.false_eq_true, if_false, hc, if_true]
        rw [ih (setFile fs (pathJoin "icons" n) b) (i + 1)]
        rfl
      · simp [hw, hc]

lemma writeLoop_frame (w : Nat → Bool) (b : Bytes) :
    ∀ (ns : List String) (fs : FS) (i : Nat) (p : String),
      p ∉ ns.map (pathJoin "icons") →
      lookupFile (writeLoop w fs ns b i).1 p = lookupFile fs p := by
  intro ns
  induction ns with
  | nil => intro fs i p _; rfl
  | cons n rest ih =>
    intro fs i p hp
    simp only [List.map_cons, List.mem_cons, not_or] at hp
    rw [writeLoop]
    by_cases hw : w i
    · simp [hw]
    · by_cases hc : "icons" ∈ fs.dirs
      · simp only [hw, Bool.false_eq_true, if_false, hc, if_true]
        rw [ih (setFile fs (pathJoin "icons" n) b) (i + 1) p (by simpa using hp.2)]
        exact lookupFile_setFile_other fs (pathJoin "icons" n) p b hp.1
      · simp [hw, hc]

lemma writeLoop_true_lookup (w : Nat → Bool) (b : Bytes) :
    ∀ (ns : List String) (fs : FS) (i : Nat) (fs' : FS),
      writeLoop w fs ns b i = (fs', true) →
      ∀ p, lookupFile fs' p =
        if p ∈ ns.map (pathJoin "icons") then some b else lookupFile fs p := by
  intro ns
  induction ns with
  | nil =>
    intro fs i fs' h p
    rw [writeLoop] at h
    simp at h
    subst h
    simp
  | cons n rest ih =>
    intro fs i fs' h p
    rw [writeLoop] at h
    by_cases hw : w i
    · simp [hw] at h
    · by_cases hc : "icons" ∈ fs.dirs
      · simp only [hw, Bool.false_eq_true, if_false, hc, if_true] at h
        have hrec := ih (setFile fs (pathJoin "icons" n) b) (i + 1) fs' h p
        by_cases hp : p = pathJoin "icons" n
        · have hfin : lookupFile fs' p = some b := by
            by_cases hm : p ∈ rest.map (pathJoin "icons")
            · simpa [hm] using hrec
            · rw [hrec, if_neg hm, hp, lookupFile_setFile_self]
          simp only [List.map_cons, List.mem_cons]
          rw [if_pos (Or.inl hp)]
          exact hfin
        · rw [lookupFile_setFile_other fs (pathJoin "icons" n) p b hp] at hrec
          simp only [List.map_cons, List.mem_cons]
          simp [hp, hrec]
      · simp [hw, hc] at h

lemma writeLoop_snd_dirs (w : Nat → Bool) (b b' : Bytes) :
    ∀ (ns : List String) (fs fs' : FS) (i : Nat), fs'.dirs = fs.dirs →
      (writeLoop w fs' ns b' i).2 = (writeLoop w fs ns b i).2 := by
  intro ns
  induction ns with
  | nil => intro fs fs' i _; rfl
  | cons n rest ih =>
    intro fs fs' i hd
    rw [writeLoop, writeLoop, hd]
    by_cases hw : w i
    · simp [hw]
    · by_cases hc : "icons" ∈ fs.dirs
      · simp only [hw, Bool.false_eq_true, if_false, hc, if_true]
        exact ih (setFile fs (pathJoin "icons" n) b)
          (setFile fs' (pathJoin "icons" n) b') (i + 1) hd
      · simp [hw, hc]

lemma writeLoop_noFail_snd (b : Bytes) :
    ∀ (ns : List String) (fs : FS) (i : Nat), "icons" ∈ fs.dirs →
      (writeLoop noFail fs ns b i).2 = true := by
  intro ns
  induction ns with
  | nil => intro fs i _; rfl
  | cons n rest ih =>
    intro fs i hc
    rw [writeLoop]
    simp only [noFail, Bool.false_eq_true, if_false, hc, if_true]
    exact ih (setFile fs (pathJoin "icons" n) b) (i + 1) hc

lemma writeLoop_noop (b : Bytes) :
    ∀ (ns : List String) (fs : FS) (i : Nat), "icons" ∈ fs.dirs →
      (∀ n ∈ ns, lookupFile fs (pathJoin "icons" n) = some b) →
      writeLoop noFail fs ns b i = (fs, true) := by
  intro ns
  induction ns with
  | nil => intro fs i _ _; rfl
  | cons n rest ih =>
    intro fs i hc hall
    rw [writeLoop]
    simp only [noFail, Bool.false_eq_true, if_false, hc, if_true]
    rw [setFile_eq_self fs (pathJoin "icons" n) b (hall n (by simp))]
    exact ih fs (i + 1) hc (fun m hm => hall m (by simp [hm]))

/-- `run` with the decode step already evaluated. -/
lemma run_eq (args : List String) (env : String → Option String)
    (w : Nat → Bool) (fs : FS) :
    run args env w fs =
      match makedirs fs "icons" with
      | none => ⟨fs, [], .fsError⟩
      | some fs1 =>
        match writeLoop w fs1 manifest icon_bytes 0 with
        | (fs2, true) => ⟨fs2, [confirmMsg], .success⟩
        | (fs2, false) => ⟨fs2, [], .fsError⟩ := by
  unfold run
  rw [b64decode_data]

/-- `run` when directory creation fails. -/
lemma run_eq_none (args : List String) (env : String → Option String)
    (w : Nat → Bool) (fs : FS) (hm : makedirs fs "icons" = none) :
    run args env w fs = ⟨fs, [], .fsError⟩ := by
  rw [run_eq, hm]

/-- `run` when directory creation succeeds. -/
lemma run_eq_some (args : List String) (env : String → Option String)
    (w : Nat → Bool) (fs fs1 : FS) (hm : makedirs fs "icons" = some fs1) :
    run args env w fs =
      match writeLoop w fs1 manifest icon_bytes 0 with
      | (fs2, true) => ⟨fs2, [confirmMsg], .success⟩
      | (fs2, false) => ⟨fs2, [], .fsError⟩ := by
  rw [run_eq, hm]

/-- Inversion of a successful run. -/
lemma run_success_inv (args : List String) (env : String → Option String)
    (w : Nat → Bool) (fs : FS) (h : (run args env w fs).outcome = .success) :
    ∃ fs1, makedirs fs "icons" = some fs1 ∧
      writeLoop w fs1 manifest icon_bytes 0 = ((run args env w fs).fs, true) ∧
      (run args env w fs).out = [confirmMsg] := by
  cases hm : makedirs fs "icons" with
  | none =>
    rw [run_eq_none args env w fs hm] at h
    simp at h
  | some fs1 =>
    cases hww : writeLoop w fs1 manifest icon_bytes 0 with
    | mk fs2 ok =>
      rw [run_eq_some args env w fs fs1 hm, hww] at h
      cases ok with
      | false => simp at h
      | true =>
        refine ⟨fs1, rfl, ?_, ?_⟩ <;>
          rw [run_eq_some args env w fs fs1 hm, hww]

lemma hasFile_false_iff (fs : FS) (p : String) :
    hasFile fs p = false ↔ lookupFile fs p = none := by
  unfold hasFile lookupFile
  cases lookupA fs.files p <;> simp

lemma makedirs_noop (fs : FS) (d : String) (hf : hasFile fs d = false)
    (hd : d ∈ fs.dirs) : makedirs fs d = some fs := by
  unfold makedirs
  simp [hf, hd]

lemma makedirs_new (fs : FS) (d : String) (hf : hasFile fs d = false)
    (hd : d ∉ fs.dirs) : makedirs fs d = some { fs with dirs := d :: fs.dirs } := by
  unfold makedirs
  simp [hf, hd]

/-- The final filesystem of a run whose directory step succeeded is the
filesystem left by the write loop, whether or not a write failed. -/
lemma run_fs_eq (args : List String) (env : String → Option String)
    (w : Nat → Bool) (fs fs1 : FS) (hm : makedirs fs "icons" = some fs1) :
    (run args env w fs).fs = (writeLoop w fs1 manifest icon_bytes 0).1 := by
  rw [run_eq_some args env w fs fs1 hm]
  cases hww : writeLoop w fs1 manifest icon_bytes 0 with
  | mk fs2 ok => cases ok <;> rfl

lemma hasFile_setFile_of_hasFile (fs : FS) (q : String) (b : Bytes)
    (hq : hasFile fs q = true) (r : String) :
    hasFile (setFile fs q b) r = hasFile fs r := by
  by_cases hr : r = q
  · subst hr
    unfold hasFile at hq ⊢
    rw [show (setFile fs r b).files = setA fs.files r b from rfl,
        lookupA_setA_self, hq]
    rfl
  · unfold hasFile
    rw [show (setFile fs q b).files = setA fs.files q b from rfl,
        lookupA_setA_other fs.files q r b hr]

/-- The outcome and printed output after a successful directory step depend
only on the directory list handed to the write loop. -/
lemma run_obs_step (args : List String) (env : String → Option String)
    (w : Nat → Bool) (fs fs' g g' : FS)
    (hm : makedirs fs "icons" = some g) (hm' : makedirs fs' "icons" = some g')
    (hgd : g'.dirs = g.dirs) :
    (run args env w fs').outcome = (run args env w fs).outcome ∧
    (run args env w fs').out = (run args env w fs).out := by
  rw [run_eq_some args env w fs g hm, run_eq_some args env w fs' g' hm']
  cases hww : writeLoop w g manifest icon_bytes 0 with
  | mk fs2 ok =>
    cases hww' : writeLoop w g' manifest icon_bytes 0 with
    | mk fs2' ok' =>
      have hok : ok' = ok := by
        have hsnd := writeLoop_snd_dirs w icon_bytes icon_bytes manifest g g' 0 hgd
        rw [hww, hww'] at hsnd
        exact hsnd
      subst hok
      cases ok' <;> exact ⟨rfl, rfl⟩

/-- The outcome and printed output of a run depend only on the directory
list and on whether a regular file occupies the path `icons`: the contents
of the files present are never read. -/
lemma run_obs (args : List String) (env : String → Option String)
    (w : Nat → Bool) (fs fs' : FS) (hd : fs'.dirs = fs.dirs)
    (hh : hasFile fs' "icons" = hasFile fs "icons") :
    (run args env w fs').outcome = (run args env w fs).outcome ∧
    (run args env w fs').out = (run args env w fs).out := by
  by_cases hf : hasFile fs "icons" = true
  · have hm : makedirs fs "icons" = none := (makedirs_none_iff fs "icons").2 hf
    have hm' : makedirs fs' "icons" = none :=
      (makedirs_none_iff fs' "icons").2 (hh.trans hf)
    rw [run_eq_none args env w fs hm, run_eq_none args env w fs' hm']
    exact ⟨rfl, rfl⟩
  · have hfF : hasFile fs "icons" = false := by simpa using hf
    have hfF' : hasFile fs' "icons" = false := hh.trans hfF
    by_cases hmem : "icons" ∈ fs.dirs
    · exact run_obs_step args env w fs fs' fs fs'
        (makedirs_noop fs "icons" hfF hmem)
        (makedirs_noop fs' "icons" hfF' (hd ▸ hmem)) hd
    · exact run_obs_step args env w fs fs'
        { fs with dirs := "icons" :: fs.dirs }
        { fs' with dirs := "icons" :: fs'.dirs }
        (makedirs_new fs "icons" hfF hmem)
        (makedirs_new fs' "icons" hfF' (by rw [hd]; exact hmem))
        (by simp [hd])

/-- If the oracle lets the first `n` writes through and fails the next one,
the loop stops with exactly the first `n` files written. -/
lemma writeLoop_fail_lookup (w : Nat → Bool) (b : Bytes) :
    ∀ (ns : List String) (fs : FS) (i n : Nat),
      (∀ j, j < n → w (i + j) = false) → w (i + n) = true → n < ns.length →
      "icons" ∈ fs.dirs →
      (writeLoop w fs ns b i).2 = false ∧
      ∀ p, lookupFile (writeLoop w fs ns b i).1 p =
        if p ∈ (ns.take n).map (pathJoin "icons") then some b
        else lookupFile fs p := by
  intro ns
  induction ns with
  | nil =>
    intro fs i n _ _ hlen _
    simp at hlen
  | cons m rest ih =>
    intro fs i n hl hwn hlen hc
    cases n with
    | zero =>
      rw [writeLoop]
      rw [if_pos (by simpa using hwn)]
      exact ⟨rfl, fun p => by simp⟩
    | succ k =>
      have hw0 : w i = false := by simpa using hl 0 (Nat.succ_pos k)
      rw [writeLoop, if_neg (by simp [hw0]), if_pos hc]
      have hrec := ih (setFile fs (pathJoin "icons" m) b) (i + 1) k
        (fun j hj => by
          have := hl (j + 1) (Nat.succ_lt_succ hj)
          rwa [show i + (j + 1) = i + 1 + j by omega] at this)
        (by rwa [show i + 1 + k = i + (k + 1) by omega])
        (by simpa using Nat.lt_of_succ_lt_succ (Nat.succ_lt_succ (by simpa using hlen)))
        hc
      refine ⟨hrec.1, fun p => ?_⟩
      rw [hrec.2 p]
      by_cases hp : p = pathJoin "icons" m
      · by_cases hm : p ∈ (rest.take k).map (pathJoin "icons")
        · rw [if_pos hm, if_pos (by simp [hp])]
        · rw [if_neg hm, if_pos (by simp [hp]), hp, lookupFile_setFile_self]
      · rw [lookupFile_setFile_other fs (pathJoin "icons" m) p b hp]
        have hmem : (p ∈ (((m :: rest).take (k + 1)).map (pathJoin "icons"))) ↔
            (p ∈ (rest.take k).map (pathJoin "icons")) := by
          simp [hp]
        by_cases hm : p ∈ (rest.take k).map (pathJoin "icons")
        · rw [if_pos hm, if_pos (hmem.2 hm)]
        · rw [if_neg hm, if_neg (fun hx => hm (hmem.1 hx))]

/-- C1: after any successful run, every one of the four files named in the
manifest (under the icons directory) contains exactly the byte sequence
obtained by base64-decoding the embedded literal, regardless of the files'
prior contents. -/
theorem C1_files_contain_decoded_literal (args : List String)
    (env : String → Option String) (w : Nat → Bool) (fs : FS)
    (h : (run args env w fs).outcome = .success) :
    ∀ n ∈ manifest,
      lookupFile (run args env w fs).fs (pathJoin "icons" n) = b64decode data := by
  intro n hn
  obtain ⟨fs1, hm, hww, _⟩ := run_success_inv args env w fs h
  rw [b64decode_data,
    writeLoop_true_lookup w icon_bytes manifest fs1 0 _ hww (pathJoin "icons" n),
    if_pos (List.mem_map_of_mem (pathJoin "icons") hn)]

/-- C1 evaluated on a run from the empty working directory. -/
theorem C1_witness :
    (run [] noEnv noFail emptyFS).outcome = .success ∧
    lookupFile (run [] noEnv noFail emptyFS).fs (pathJoin "icons" "icon.png") =
      b64decode data :=
  ⟨by decide,
   C1_files_contain_decoded_literal [] noEnv noFail emptyFS (by decide)
     "icon.png" (by decide)⟩

/-- C2: run in an empty working directory, the run succeeds, creates the
directory `icons` containing exactly the four manifest files and nothing
else, each of length equal to the decoded literal's byte length, and prints
the confirmation line. -/
theorem C2_empty_dir_exact_files :
    (run [] noEnv noFail emptyFS).outcome = .success ∧
    (run [] noEnv noFail emptyFS).fs.dirs = ["icons"] ∧
    (run [] noEnv noFail emptyFS).fs.files.map Prod.fst = targetPaths ∧
    (∀ e ∈ (run [] noEnv noFail emptyFS).fs.files, e.2.length = icon_bytes.length) ∧
    (run [] noEnv noFail emptyFS).out = [confirmMsg] := by
  decide

/-- C3: running the generator again immediately after a successful run
succeeds again and leaves the filesystem — in particular all four files —
byte-for-byte unchanged (overwrite semantics, not append). -/
theorem C3_second_run_idempotent (args : List String)
    (env : String → Option String) (w : Nat → Bool) (fs : FS)
    (h : (run args env w fs).outcome = .success) :
    (run args env noFail (run args env w fs).fs).outcome = .success ∧
    (run args env noFail (run args env w fs).fs).fs = (run args env w fs).fs ∧
    ∀ n ∈ manifest,
      lookupFile (run args env noFail (run args env w fs).fs).fs (pathJoin "icons" n) =
        lookupFile (run args env w fs).fs (pathJoin "icons" n) := by
  obtain ⟨fs1, hm, hww, _⟩ := run_success_inv args env w fs h
  set r := (run args env w fs).fs with hr
  have hdirs : r.dirs = fs1.dirs := by
    have hD := writeLoop_dirs w icon_bytes manifest fs1 0
    rw [hww] at hD
    exact hD
  have hcr : "icons" ∈ r.dirs := hdirs ▸ makedirs_mem fs "icons" fs1 hm
  have hlook := writeLoop_true_lookup w icon_bytes manifest fs1 0 r hww
  have hnone : lookupFile r "icons" = none := by
    rw [hlook "icons", if_neg (by decide), makedirs_lookup fs "icons" fs1 hm]
    exact (hasFile_false_iff fs "icons").1 (makedirs_not_hasFile fs "icons" fs1 hm)
  have hm2 : makedirs r "icons" = some r :=
    makedirs_noop r "icons" ((hasFile_false_iff r "icons").2 hnone) hcr
  have hall : ∀ n ∈ manifest, lookupFile r (pathJoin "icons" n) = some icon_bytes := by
    intro n hn
    rw [hlook (pathJoin "icons" n), if_pos (List.mem_map_of_mem (pathJoin "icons") hn)]
  have hrun2 : run args env noFail r = ⟨r, [confirmMsg], .success⟩ := by
    rw [run_eq_some args env noFail r r hm2,
      writeLoop_noop icon_bytes manifest r 0 hcr hall]
  exact ⟨by rw [hrun2], by rw [hrun2], fun n _ => by rw [hrun2]⟩

/-- C3 evaluated on a first run from the empty working directory. -/
theorem C3_witness :
    (run [] noEnv noFail (run [] noEnv noFail emptyFS).fs).outcome = .success ∧
    lookupFile (run [] noEnv noFail (run [] noEnv noFail emptyFS).fs).fs
        (pathJoin "icons" "32x32.png") =
      lookupFile (run [] noEnv noFail emptyFS).fs (pathJoin "icons" "32x32.png") :=
  ⟨(C3_second_run_idempotent [] noEnv noFail emptyFS (by decide)).1,
   (C3_second_run_idempotent [] noEnv noFail emptyFS (by decide)).2.2
     "32x32.png" (by decide)⟩

/-- C4: when no regular file occupies the path `icons`, the run leaves
`icons` existing as a directory (creating it if it was absent), and the
directory-creation step raises no error whether or not the directory
already existed: with no injected write failures the run goes on to write
the files and succeeds. -/
theorem C4_directory_created_or_kept (args : List String)
    (env : String → Option String) (w : Nat → Bool) (fs : FS)
    (h : hasFile fs "icons" = false) :
    "icons" ∈ (run args env w fs).fs.dirs ∧
    (run args env noFail fs).outcome = .success := by
  cases hm : makedirs fs "icons" with
  | none =>
    have hx := (makedirs_none_iff fs "icons").1 hm
    rw [h] at hx
    simp at hx
  | some fs1 =>
    have hc : "icons" ∈ fs1.dirs := makedirs_mem fs "icons" fs1 hm
    constructor
    · rw [run_fs_eq args env w fs fs1 hm, writeLoop_dirs w icon_bytes manifest fs1 0]
      exact hc
    · cases hww : writeLoop noFail fs1 manifest icon_bytes 0 with
      | mk fs2 ok =>
        have hok : ok = true := by
          have hs := writeLoop_noFail_snd icon_bytes manifest fs1 0 hc
          rw [hww] at hs
          exact hs
        subst hok
        rw [run_eq_some args env noFail fs fs1 hm, hww]

/-- C4 evaluated on the empty working directory. -/
theorem C4_witness :
    "icons" ∈ (run [] noEnv noFail emptyFS).fs.dirs ∧
    (run [] noEnv noFail emptyFS).outcome = .success :=
  C4_directory_created_or_kept [] noEnv noFail emptyFS (by decide)

/-- C5: if a regular file named `icons` already exists, the run fails with
a filesystem error before writing any of the four target files, and the
pre-existing file's content is unchanged. -/
theorem C5_plain_file_blocks_run (args : List String)
    (env : String → Option String) (w : Nat → Bool) (fs : FS) (b : Bytes)
    (h : lookupFile fs "icons" = some b) :
    run args env w fs = ⟨fs, [], .fsError⟩ ∧
    lookupFile (run args env w fs).fs "icons" = some b ∧
    ∀ p ∈ targetPaths, lookupFile (run args env w fs).fs p = lookupFile fs p := by
  have hf : hasFile fs "icons" = true := by
    unfold hasFile
    rw [show lookupA fs.files "icons" = some b from h]
    rfl
  have he := run_eq_none args env w fs ((makedirs_none_iff fs "icons").2 hf)
  exact ⟨he, by rw [he]; exact h, fun p _ => by rw [he]⟩

/-- C5 evaluated with a one-byte regular file at `icons`. -/
theorem C5_witness :
    run [] noEnv noFail iconsFileFS = ⟨iconsFileFS, [], .fsError⟩ ∧
    lookupFile (run [] noEnv noFail iconsFileFS).fs "icons" = some [0] ∧
    lookupFile (run [] noEnv noFail iconsFileFS).fs "icons/icon.png" =
      lookupFile iconsFileFS "icons/icon.png" :=
  ⟨(C5_plain_file_blocks_run [] noEnv noFail iconsFileFS [0] (by decide)).1,
   (C5_plain_file_blocks_run [] noEnv noFail iconsFileFS [0] (by decide)).2.1,
   (C5_plain_file_blocks_run [] noEnv noFail iconsFileFS [0] (by decide)).2.2
     "icons/icon.png" (by decide)⟩

/-- C6: the confirmation line is emitted exactly once, and exactly when the
run succeeds; any failing run (decode or filesystem, which terminates with
a non-success outcome) prints nothing. -/
theorem C6_confirmation_iff_success (args : List String)
    (env : String → Option String) (w : Nat → Bool) (fs : FS) :
    (run args env w fs).out =
      (if (run args env w fs).outcome = .success then [confirmMsg] else []) := by
  cases hm : makedirs fs "icons" with
  | none =>
    rw [run_eq_none args env w fs hm]
    rfl
  | some fs1 =>
    rw [run_eq_some args env w fs fs1 hm]
    cases hww : writeLoop w fs1 manifest icon_bytes 0 with
    | mk fs2 ok => cases ok <;> rfl

/-- C7: if the write of the file at position n fails while all earlier
writes succeed, the run stops at once with a filesystem error: the first n
files are fully written with the decoded bytes, and every later target path
is left exactly as it was (no retry, no rollback). -/
theorem C7_nth_write_failure (args : List String)
    (env : String → Option String) (w : Nat → Bool) (fs : FS) (n : Nat)
    (hn : n < 4) (hl : ∀ j, j < n → w j = false) (hwn : w n = true)
    (hf : hasFile fs "icons" = false) :
    (run args env w fs).outcome = .fsError ∧
    (∀ p ∈ targetPaths.take n, lookupFile (run args env w fs).fs p = some icon_bytes) ∧
    (∀ p ∈ targetPaths.drop n, lookupFile (run args env w fs).fs p = lookupFile fs p) := by
  cases hm : makedirs fs "icons" with
  | none =>
    have hx := (makedirs_none_iff fs "icons").1 hm
    rw [hf] at hx
    simp at hx
  | some fs1 =>
    have hc : "icons" ∈ fs1.dirs := makedirs_mem fs "icons" fs1 hm
    have hfail := writeLoop_fail_lookup w icon_bytes manifest fs1 0 n
      (fun j hj => by simpa using hl j hj) (by simpa using hwn)
      (by simpa using hn) hc
    cases hww : writeLoop w fs1 manifest icon_bytes 0 with
    | mk fs2 ok =>
      rw [hww] at hfail
      have hok : ok = false := hfail.1
      subst hok
      have hrfs : (run args env w fs).fs = fs2 := by
        rw [run_fs_eq args env w fs fs1 hm, hww]
      have hout : (run args env w fs).outcome = .fsError := by
        rw [run_eq_some args env w fs fs1 hm, hww]
      refine ⟨hout, ?_, ?_⟩
      · intro p hp
        have h2 : lookupFile fs2 p =
            (if p ∈ (manifest.take n).map (pathJoin "icons") then some icon_bytes
             else lookupFile fs1 p) := hfail.2 p
        rw [hrfs, h2, if_pos (by rw [List.map_take]; exact hp)]
      · intro p hp
        have h2 : lookupFile fs2 p =
            (if p ∈ (manifest.take n).map (pathJoin "icons") then some icon_bytes
             else lookupFile fs1 p) := hfail.2 p
        have hnotin : p ∉ (manifest.take n).map (pathJoin "icons") := by
          rw [List.map_take]
          have hnd : targetPaths.Nodup := by decide
          intro hcon
          exact (List.disjoint_take_drop hnd (le_refl n)) hcon hp
        rw [hrfs, h2, if_neg hnotin, makedirs_lookup fs "icons" fs1 hm]

/-- C7 evaluated with the third write (index 2) failing. -/
theorem C7_witness :
    (run [] noEnv failTwo emptyFS).outcome = .fsError ∧
    lookupFile (run [] noEnv failTwo emptyFS).fs (pathJoin "icons" "32x32.png") =
      some icon_bytes ∧
    lookupFile (run [] noEnv failTwo emptyFS).fs (pathJoin "icons" "128x128@2x.png") =
      lookupFile emptyFS (pathJoin "icons" "128x128@2x.png") :=
  ⟨(C7_nth_write_failure [] noEnv failTwo emptyFS 2 (by decide) (by decide)
      (by decide) (by decide)).1,
   (C7_nth_write_failure [] noEnv failTwo emptyFS 2 (by decide) (by decide)
      (by decide) (by decide)).2.1 (pathJoin "icons" "32x32.png") (by decide),
   (C7_nth_write_failure [] noEnv failTwo emptyFS 2 (by decide) (by decide)
      (by decide) (by decide)).2.2 (pathJoin "icons" "128x128@2x.png") (by decide)⟩

/-- C8: the program consults no command-line arguments and no environment
variables: two runs from the same filesystem state under the same injected
failure behaviour coincide in final filesystem, standard output, and
outcome, whatever arguments or environment they are started with. -/
theorem C8_no_args_env_deterministic (args1 args2 : List String)
    (env1 env2 : String → Option String) (w : Nat → Bool) (fs : FS) :
    run args1 env1 w fs = run args2 env2 w fs := rfl

/-- C9: base64-decoding the embedded literal always succeeds, giving a
nonempty byte sequence that is a minimal 1×1 PNG payload; consequently
every run ends in success or a filesystem error — never a decode error. -/
theorem C9_decode_always_succeeds :
    b64decode data = some icon_bytes ∧ 0 < icon_bytes.length ∧
    isPng1x1 icon_bytes = true ∧
    ∀ (args : List String) (env : String → Option String) (w : Nat → Bool) (fs : FS),
      (run args env w fs).outcome = .success ∨
      (run args env w fs).outcome = .fsError := by
  refine ⟨b64decode_data, by decide, by decide, ?_⟩
  intro args env w fs
  cases hm : makedirs fs "icons" with
  | none => right; rw [run_eq_none args env w fs hm]
  | some fs1 =>
    rw [run_eq_some args env w fs fs1 hm]
    cases hww : writeLoop w fs1 manifest icon_bytes 0 with
    | mk fs2 ok =>
      cases ok with
      | false => right; rfl
      | true => left; rfl

/-- C10: a run touches nothing outside the directory `icons` and the four
target paths: every other path's file content is preserved byte-for-byte,
every other directory's existence is unchanged, and the contents of
pre-existing files are never read — rewriting any existing file's content
beforehand cannot change the run's outcome or output. -/
theorem C10_frame (args : List String) (env : String → Option String)
    (w : Nat → Bool) (fs : FS) (p : String) (hp : p ∉ targetPaths) :
    lookupFile (run args env w fs).fs p = lookupFile fs p ∧
    (∀ d, d ≠ "icons" → ((d ∈ (run args env w fs).fs.dirs) ↔ d ∈ fs.dirs)) ∧
    (∀ q b', hasFile fs q = true →
      (run args env w (setFile fs q b')).outcome = (run args env w fs).outcome ∧
      (run args env w (setFile fs q b')).out = (run args env w fs).out) := by
  refine ⟨?_, ?_, ?_⟩
  · cases hm : makedirs fs "icons" with
    | none => rw [run_eq_none args env w fs hm]
    | some fs1 =>
      rw [run_fs_eq args env w fs fs1 hm,
        writeLoop_frame w icon_bytes manifest fs1 0 p hp,
        makedirs_lookup fs "icons" fs1 hm]
  · intro d hd
    cases hm : makedirs fs "icons" with
    | none => rw [run_eq_none args env w fs hm]
    | some fs1 =>
      rw [run_fs_eq args env w fs fs1 hm, writeLoop_dirs w icon_bytes manifest fs1 0]
      rcases makedirs_dirs_cases fs "icons" fs1 hm with hcase | hcase <;> rw [hcase]
      simp [hd]
  · intro q b' hq
    exact run_obs args env w fs (setFile fs q b') rfl
      (hasFile_setFile_of_hasFile fs q b' hq "icons")

/-- C10 evaluated on a working directory holding an unrelated file and
directory. -/
theorem C10_witness :
    lookupFile (run [] noEnv noFail otherFS).fs "readme.md" =
      lookupFile otherFS "readme.md" ∧
    (("docs" ∈ (run [] noEnv noFail otherFS).fs.dirs) ↔ "docs" ∈ otherFS.dirs) ∧
    (run [] noEnv noFail (setFile otherFS "readme.md" [9])).outcome =
      (run [] noEnv noFail otherFS).outcome :=
  ⟨(C10_frame [] noEnv noFail otherFS "readme.md" (by decide)).1,
   (C10_frame [] noEnv noFail otherFS "readme.md" (by decide)).2.1 "docs" (by decide),
   ((C10_frame [] noEnv noFail otherFS "readme.md" (by decide)).2.2
     "readme.md" [9] (by decide)).1⟩

end FixIcons
